import Mathlib

/-!
Verification of the windowed feature-extraction core of the
construction-site risk-detection repository, as a shallow embedding.

Numeric conventions: Python/numpy floats are modelled as exact rationals
(`ℚ`); values that may be NaN are modelled as `Option ℚ` (`none` = NaN);
real-valued statistics that need a square root live in `ℝ`.
Rows (Python dicts of feature name to value) are association lists with
`PyVal` values, where `PyVal.noneV` models Python `None`.
-/

namespace SiteRisk

/-- A Python dict value: a numeric value or `None`. -/
inductive PyVal where
  | num (q : ℚ)
  | noneV
deriving DecidableEq

/-- A feature row: ordered mapping from feature name to value. -/
abbrev Row := List (String × PyVal)

/-- First value bound to key `k` (Python dict lookup; keys are unique in rows). -/
def lookupKey : Row → String → Option PyVal
  | [], _ => none
  | kv :: r, k => if kv.1 = k then some kv.2 else lookupKey r k

/-- One detection record, as produced by the external tracker
(`{camera_id, timestamp, object_class, confidence, bbox_x, bbox_y, bbox_w,
bbox_h, track_id}`; the bounding box is top-left anchored). -/
structure Detection where
  camera_id : ℤ
  timestamp : ℚ
  object_class : String
  conf : ℚ
  bbox_x : ℚ
  bbox_y : ℚ
  bbox_w : ℚ
  bbox_h : ℚ
  track_id : ℤ
deriving DecidableEq

/-- Embeds `np.mean` on a rational list (only used on nonempty lists, as the code
guards emptiness before averaging). -/
def qMean (l : List ℚ) : ℚ := l.sum / l.length

/-- Population variance (`ddof = 0`), the quantity under `np.std`'s root. -/
def npVarQ (l : List ℚ) : ℚ := ((l.map (fun x => (x - qMean l) ^ 2)).sum) / l.length

/-- Embeds `np.std`: square root of the population variance. -/
noncomputable def npStd (l : List ℚ) : ℝ := Real.sqrt (npVarQ l)

/-- The epsilon `1e-6` the extractors add to denominators. -/
def eps : ℚ := 1 / 1000000

-- ==========================================================
-- feature_extraction2/ml_feature_config.py
-- ==========================================================

/-- The canonical ML schema column list (`ML_FEATURE_COLUMNS`). -/
def ML_FEATURE_COLUMNS : List String := [
  "avg_num_persons",
  "max_num_persons",
  "unique_person_tracks",
  "person_density",
  "person_presence_ratio",
  "avg_epi_compliance",
  "helmet_compliance_ratio",
  "vest_compliance_ratio",
  "num_no_helmet_events",
  "num_no_vest_events",
  "num_machines_avg",
  "machine_presence_ratio",
  "unique_machine_tracks",
  "co_presence_person_machine",
  "dangerous_proximity_frames",
  "min_person_machine_distance",
  "avg_person_speed",
  "std_person_speed",
  "sudden_stop_events",
  "erratic_motion_score",
  "direction_variance",
  "num_persons_in_zone",
  "num_people_in_high_risk_zone",
  "proportion_time_in_high_risk_zone",
  "multiple_zone_exposure",
  "avg_person_height",
  "time_near_machine",
  "num_machine_interactions",
  "motion_consistency",
  "activity_persistence_score"]

-- ==========================================================
-- feature_extraction2/pipeline.py (lines 108-122): the ML projection
-- `df_all_features.reindex(columns=ML_FEATURE_COLUMNS).fillna(0)`
-- ==========================================================

/-- Embeds `reindex` + `fillna(0)` on one cell: a column absent from the row, or
holding a missing value, becomes `0`. -/
def fillZero : Option PyVal → PyVal
  | some (PyVal.num q) => PyVal.num q
  | some PyVal.noneV => PyVal.num 0
  | none => PyVal.num 0

/-- One row of `df_ml_features`: the canonical columns in order, zero-filled. -/
def mlProject (r : Row) : Row :=
  ML_FEATURE_COLUMNS.map (fun c => (c, fillZero (lookupKey r c)))

/-- Tail of `extract_features_pipeline`: from the accumulated feature rows,
build `(df_all_features, df_ml_features)`; a degenerate run (no rows)
returns the empty table twice. -/
def pipelineTables (allRows : List Row) : List Row × List Row :=
  if allRows = [] then ([], []) else (allRows, allRows.map mlProject)

-- ==========================================================
-- pipeline.py (lines 92-97) calling
-- activity_transition_features.py (line 39): Python keyword call
-- ==========================================================

/-- The formal parameter names of `ActivityTransitionFeatures.extract`
(besides `self`): `def extract(self, current_features: Dict)`. -/
def atfExtractParams : List String := ["current_features"]

/-- The keyword arguments the pipeline passes to the transition extractor:
`transition_extractor.extract(current_row=row, history=previous_rows)`. -/
def pipelineTransitionKw : List String := ["current_row", "history"]

/-- Python keyword-call binding succeeds iff every keyword argument names a
declared parameter and every parameter without a default is bound
(`extract` declares no defaults and no `**kwargs`); otherwise the call
raises `TypeError`. -/
def kwCallAccepted (params kwargs : List String) : Bool :=
  kwargs.all (fun k => params.contains k) && params.all (fun p => kwargs.contains p)

-- ==========================================================
-- feature_extraction2/sliding_window.py : SlidingWindow.generate
-- ==========================================================

/-- The detections selected by the window mask
`(timestamp >= current_start) & (timestamp < current_start + duration)`. -/
def windowFilter (dfAll : List Detection) (s dur : ℚ) : List Detection :=
  dfAll.filter (fun d => decide (s ≤ d.timestamp ∧ d.timestamp < s + dur))

/-- The `while current_start + window_delta <= end_time` loop of
`SlidingWindow.generate`, unrolled on a fuel argument that the wrapper
instantiates with a provably sufficient iteration bound. -/
def generateAux (dfAll : List Detection) (dur step endT : ℚ) :
    ℕ → ℚ → List (List Detection)
  | 0, _ => []
  | fuel + 1, cur =>
      if cur + dur ≤ endT then
        windowFilter dfAll cur dur :: generateAux dfAll dur step endT fuel (cur + step)
      else []

/-- Iteration bound for the window loop: enough fuel for every start
`startT + k·step` with `startT + k·step + dur ≤ endT` (when `0 < step` and
`0 < dur`). -/
def genFuel (startT endT step : ℚ) : ℕ := (Int.ceil ((endT - startT) / step)).toNat + 1

/-- Embeds `SlidingWindow.generate`: empty bulk load yields no windows; otherwise
the window loop from `start_time`. -/
def SlidingWindow.generate (dfAll : List Detection) (dur step startT endT : ℚ) :
    List (List Detection) :=
  if dfAll = [] then []
  else generateAux dfAll dur step endT (genFuel startT endT step) startT

-- ==========================================================
-- feature_extraction2/epi_features.py
-- ==========================================================

/-- The helmet / vest / mask association state of one person
(`None` = no indicator observed, `True` = compliant, `False` = violation). -/
structure PersonEpi where
  helmet : Option Bool
  vest : Option Bool
  mask : Option Bool
deriving DecidableEq

/-- The `YOLO_TO_EPI` mapping from detector class to (slot, compliant). -/
def yoloToEpi (c : String) : Option (String × Bool) :=
  if c = "hardhat" then some ("helmet", true)
  else if c = "no_hardhat" then some ("helmet", false)
  else if c = "safety_vest" then some ("vest", true)
  else if c = "no_safety_vest" then some ("vest", false)
  else if c = "mask" then some ("mask", true)
  else if c = "no_mask" then some ("mask", false)
  else none

/-- Performs `result[p["track_id"]][epi_name] = epi_value` for one slot name. -/
def setSlot (pe : PersonEpi) (slot : String) (v : Bool) : PersonEpi :=
  if slot = "helmet" then { pe with helmet := some v }
  else if slot = "vest" then { pe with vest := some v }
  else if slot = "mask" then { pe with mask := some v }
  else pe

/-- The inner loop of `_associate_epi_to_persons` for one person `p`:
start from all-`None`, then for each equipment detection of the same
frame whose center lies inside `p`'s box, set the mapped slot (later
detections overwrite earlier ones). -/
def associateOne (epis : List Detection) (p : Detection) : PersonEpi :=
  epis.foldl
    (fun acc e =>
      if e.timestamp ≠ p.timestamp then acc
      else
        let cx := e.bbox_x + e.bbox_w / 2
        let cy := e.bbox_y + e.bbox_h / 2
        if p.bbox_x ≤ cx ∧ cx ≤ p.bbox_x + p.bbox_w ∧
           p.bbox_y ≤ cy ∧ cy ≤ p.bbox_y + p.bbox_h then
          match yoloToEpi e.object_class with
          | some sv => setSlot acc sv.1 sv.2
          | none => acc
        else acc)
    ⟨none, none, none⟩

/-- Dict insert-or-overwrite on the track-id keyed association result
(a later person row with the same `track_id` re-initialises its entry). -/
def updateAssoc (l : List (ℤ × PersonEpi)) (k : ℤ) (v : PersonEpi) :
    List (ℤ × PersonEpi) :=
  if l.any (fun kv => kv.1 = k) then l.map (fun kv => if kv.1 = k then (k, v) else kv)
  else l ++ [(k, v)]

/-- Embeds `_associate_epi_to_persons`: equipment detections are
`df[df["object_class"].isin(YOLO_TO_EPI.keys())]`; the persons are
processed in row order, each (re)binding its `track_id` entry. -/
def associateEpi (df persons : List Detection) : List (ℤ × PersonEpi) :=
  let epis := df.filter (fun e => (yoloToEpi e.object_class).isSome)
  persons.foldl (fun acc p => updateAssoc acc p.track_id (associateOne epis p)) []

/-- Compliance ratio over the persons with an observed state
(`sum(states)/len(states) if states else 0.0`). -/
def complRat (states : List Bool) : ℚ :=
  if states = [] then 0 else (states.count true : ℚ) / states.length

/-- Embeds `_empty_features` of `EPIFeatures`: the nine-field zero row. -/
def epiEmptyRow : Row := [
  ("helmet_compliance_ratio", PyVal.num 0),
  ("vest_compliance_ratio", PyVal.num 0),
  ("mask_compliance_ratio", PyVal.num 0),
  ("avg_epi_compliance", PyVal.num 0),
  ("num_no_helmet_events", PyVal.num 0),
  ("num_no_vest_events", PyVal.num 0),
  ("num_no_mask_events", PyVal.num 0),
  ("epi_violation_duration", PyVal.num 0),
  ("persistent_epi_violation", PyVal.num 0)]

/-- Whether a window counts at least one explicit non-compliance event
(the code's `has_violation = (no_helmet + no_vest + no_mask) > 0`
computed over the association values). -/
def epiHasViolation (df : List Detection) : Prop :=
  let persons := df.filter (fun d => d.object_class = "person")
  let vals := (associateEpi df persons).map Prod.snd
  ((vals.filter (fun v => v.helmet = some false)).length
    + (vals.filter (fun v => v.vest = some false)).length
    + (vals.filter (fun v => v.mask = some false)).length) > 0

instance (df : List Detection) : Decidable (epiHasViolation df) := by
  unfold epiHasViolation
  infer_instance

/-- Embeds `EPIFeatures.extract`: returns the feature row and the updated
consecutive-violation counter (`self._consecutive_violation_count`).
Empty window or no persons: the zero row, counter untouched. Otherwise the
counter increments on a violation window and resets to zero on a
violation-free one; the persistent flag fires at the configured threshold
and the duration is counter × window duration. -/
def EPIFeatures.extract (windowDuration : ℚ) (persistentThreshold : ℕ)
    (counter : ℕ) (df : List Detection) : Row × ℕ :=
  if df = [] then (epiEmptyRow, counter)
  else
    let persons := df.filter (fun d => d.object_class = "person")
    if persons = [] then (epiEmptyRow, counter)
    else
      let vals := (associateEpi df persons).map Prod.snd
      let helmets := vals.filterMap (fun v => v.helmet)
      let vests := vals.filterMap (fun v => v.vest)
      let masks := vals.filterMap (fun v => v.mask)
      let helmetRat := complRat helmets
      let vestRat := complRat vests
      let maskRat := complRat masks
      let avgEpi := (helmetRat + vestRat + maskRat) / 3
      let noHelmet := (vals.filter (fun v => v.helmet = some false)).length
      let noVest := (vals.filter (fun v => v.vest = some false)).length
      let noMask := (vals.filter (fun v => v.mask = some false)).length
      let hasViol := noHelmet + noVest + noMask > 0
      let counter' := if hasViol then counter + 1 else 0
      let persistent : ℚ := if persistentThreshold ≤ counter' then 1 else 0
      ([("helmet_compliance_ratio", PyVal.num helmetRat),
        ("vest_compliance_ratio", PyVal.num vestRat),
        ("mask_compliance_ratio", PyVal.num maskRat),
        ("avg_epi_compliance", PyVal.num avgEpi),
        ("num_no_helmet_events", PyVal.num noHelmet),
        ("num_no_vest_events", PyVal.num noVest),
        ("num_no_mask_events", PyVal.num noMask),
        ("epi_violation_duration", PyVal.num (counter' * windowDuration)),
        ("persistent_epi_violation", PyVal.num persistent)], counter')

-- ==========================================================
-- feature_extraction2/activity_transition_features.py
-- ==========================================================

/-- Append into a bounded `deque(maxlen=n)`: keep the most recent `n`. -/
def dqAppend (n : ℕ) (l : List ℚ) (x : ℚ) : List ℚ :=
  let l' := l ++ [x]
  l'.drop (l'.length - n)

/-- The three bounded histories of `ActivityTransitionFeatures`
(person count, zone-occupant count, high-risk-occupant count). -/
structure ATFState where
  personHist : List ℚ
  zoneHist : List ℚ
  highHist : List ℚ
deriving DecidableEq

/-- The fresh transition-extractor state (empty deques). -/
def ATFState.init : ATFState := ⟨[], [], []⟩

/-- Embeds `_update_history`: append the current values to all three deques. -/
def ATF.update (n : ℕ) (s : ATFState) (p z h : ℚ) : ATFState :=
  ⟨dqAppend n s.personHist p, dqAppend n s.zoneHist z, dqAppend n s.highHist h⟩

/-- Python's `round` on a float: round half to even (banker's rounding). -/
noncomputable def pyRound (x : ℝ) : ℤ :=
  if Int.fract x = 1 / 2 then (if 2 ∣ ⌊x⌋ then ⌊x⌋ else ⌊x⌋ + 1) else round x

/-- The transition row: `activity_change_rate` (rational arithmetic only),
`zone_transition_count = int(round(np.std(zone_hist)))` and
`risk_transition_score` (both need a real square root). -/
structure ATFRow where
  rate : ℚ
  zoneCount : ℤ
  riskScore : ℝ

/-- Embeds `ActivityTransitionFeatures.extract`: with fewer than 2 samples of
history, update the histories and return the neutral row; otherwise score
from the histories excluding the current sample, then append it. -/
noncomputable def ATF.extract (n : ℕ) (s : ATFState) (curP curZ curH : ℚ) :
    ATFRow × ATFState :=
  if s.personHist.length < 2 then (⟨0, 0, 0⟩, ATF.update n s curP curZ curH)
  else
    let prev := qMean s.personHist
    let delta := |curP - prev|
    let rate0 : ℚ := if 0 < prev then delta / (prev + eps) else 0
    let rate := min (max rate0 0) 1
    let zc : ℤ := pyRound (npStd s.zoneHist)
    let rs0 : ℝ := npStd s.highHist / ((qMean s.highHist : ℝ) + (eps : ℝ))
    let rs : ℝ := min (max rs0 0) 1
    (⟨rate, zc, rs⟩, ATF.update n s curP curZ curH)

/-- Follows the spec's words, for refinement comparison with the code:
`activity_change_rate = clip(|current − mean(history)| / (mean(history)+ε), 0, 1)`. -/
def specActivityChangeRate (hist : List ℚ) (cur : ℚ) : ℚ :=
  min (max (|cur - qMean hist| / (qMean hist + eps)) 0) 1

-- ==========================================================
-- feature_extraction2/activity_stability_features.py
-- ==========================================================

/-- The three bounded histories of `ActivityStabilityFeatures`
(average speed, person count, erratic-motion score). -/
structure ASFState where
  speedHist : List ℚ
  personHist : List ℚ
  motionHist : List ℚ
deriving DecidableEq

/-- The fresh stability-extractor state (empty deques). -/
def ASFState.init : ASFState := ⟨[], [], []⟩

/-- Embeds `_update_history` of the stability extractor. -/
def ASF.update (n : ℕ) (s : ASFState) (sp p e : ℚ) : ASFState :=
  ⟨dqAppend n s.speedHist sp, dqAppend n s.personHist p, dqAppend n s.motionHist e⟩

/-- The stability row (all three scores are floats). -/
structure ASFRow where
  persistence : ℝ
  consistency : ℝ
  stability : ℝ

/-- Embeds `ActivityStabilityFeatures.extract`: appends the current values to the
histories FIRST, then returns the neutral triple while history holds fewer
than 2 samples, else the three stability scores over the updated
histories. -/
noncomputable def ASF.extract (n : ℕ) (s : ASFState) (avgSpeed numPersons erratic : ℚ) :
    ASFRow × ASFState :=
  let s' := ASF.update n s avgSpeed numPersons erratic
  if s'.speedHist.length < 2 then (⟨1 / 2, 1 / 2, 1 / 2⟩, s')
  else
    let persistence : ℝ := 1 / (1 + npStd s'.personHist)
    let speedMean : ℝ := (qMean s'.speedHist : ℝ) + (eps : ℝ)
    let mc : ℝ := min (max (1 - npStd s'.speedHist / speedMean) 0) 1
    let stab : ℝ := 1 / (1 + npStd s'.motionHist)
    (⟨persistence, mc, stab⟩, s')

/-- The stability state after `k` calls with the constant per-window input
`(sp, p, e)`, starting from the fresh state. -/
noncomputable def ASF.stateAfter (n : ℕ) (sp p e : ℚ) : ℕ → ASFState
  | 0 => ASFState.init
  | k + 1 => (ASF.extract n (ASF.stateAfter n sp p e k) sp p e).2

-- ==========================================================
-- feature_extraction2/utils/homography.py and
-- feature_extraction2/zone_features.py (projection loop, lines 109-125)
-- ==========================================================

/-- A float that may be NaN: `none` models NaN, which propagates through
arithmetic and makes `np.isnan` true. -/
abbrev F := Option ℚ

/-- Float addition with NaN propagation. -/
def fAdd : F → F → F
  | some a, some b => some (a + b)
  | _, _ => none

/-- Float multiplication with NaN propagation. -/
def fMul : F → F → F
  | some a, some b => some (a * b)
  | _, _ => none

/-- Float division with NaN propagation (callers guard the zero divisor,
so the zero-divisor case is mapped to NaN and is unreachable in
`apply_homography`). -/
def fDiv : F → F → F
  | some a, some b => if b = 0 then none else some (a / b)
  | _, _ => none

/-- A 3×3 homography matrix of floats. -/
structure Hmat where
  e11 : F
  e12 : F
  e13 : F
  e21 : F
  e22 : F
  e23 : F
  e31 : F
  e32 : F
  e33 : F

/-- Embeds `HomographyUtils.apply_homography`: `p = H @ [x, y, 1]`; if the
homogeneous coordinate `p[2]` compares equal to 0 the function returns
`(0.0, 0.0)`, otherwise it divides through by `p[2]`. (A NaN `p[2]`
compares unequal to 0, so it falls into the divide.) -/
def applyHomography (x y : F) (H : Hmat) : F × F :=
  let px := fAdd (fAdd (fMul H.e11 x) (fMul H.e12 y)) (fMul H.e13 (some 1))
  let py := fAdd (fAdd (fMul H.e21 x) (fMul H.e22 y)) (fMul H.e23 (some 1))
  let pz := fAdd (fAdd (fMul H.e31 x) (fMul H.e32 y)) (fMul H.e33 (some 1))
  if pz = some 0 then (some 0, some 0) else (fDiv px pz, fDiv py pz)

/-- The homogeneous denominator `p[2]` of the projection of person `p`'s
anchor point `(bbox_x, bbox_y + bbox_h/2)`. -/
def homogDenom (H : Hmat) (p : Detection) : F :=
  fAdd (fAdd (fMul H.e31 (some p.bbox_x)) (fMul H.e32 (some (p.bbox_y + p.bbox_h / 2))))
    (fMul H.e33 (some 1))

/-- The projection performed by `ZoneFeatures.extract` for one person:
`x_img = p["bbox_x"]`, `y_img = p["bbox_y"] + p["bbox_h"] / 2`. -/
def zoneProjectPerson (H : Hmat) (p : Detection) : F × F :=
  applyHomography (some p.bbox_x) (some (p.bbox_y + p.bbox_h / 2)) H

/-- The person loop of `ZoneFeatures.extract` up to the NaN guard: the
persons that survive `if np.isnan(Xp) or np.isnan(Yp): continue`, each
with its projected plane point; skipped persons do not interrupt the
loop. -/
def zoneProcessedPersons (H : Hmat) (persons : List Detection) :
    List (ℤ × ℚ × ℚ) :=
  persons.filterMap (fun p =>
    match zoneProjectPerson H p with
    | (some xp, some yp) => some (p.track_id, xp, yp)
    | _ => none)

/-- Follows the spec's words, for comparison with the code's anchor point:
the bottom-center of a top-left-anchored box is `(x + w/2, y + h)`. -/
def specBottomCenter (p : Detection) : ℚ × ℚ :=
  (p.bbox_x + p.bbox_w / 2, p.bbox_y + p.bbox_h)

-- ==========================================================
-- feature_extraction2/proximity_features.py and geometry.py
-- ==========================================================

/-- Embeds `GeometryUtils.bbox_center` (geometry.py): the box is top-left
anchored, the center is `(x + w/2, y + h/2)`. -/
def bboxCenter (p : Detection) : ℚ × ℚ :=
  (p.bbox_x + p.bbox_w / 2, p.bbox_y + p.bbox_h / 2)

/-- Embeds `GeometryUtils.euclidean_distance` between two points. -/
noncomputable def euclid (a b : ℚ × ℚ) : ℝ :=
  Real.sqrt (((a.1 - b.1 : ℚ) : ℝ) ^ 2 + ((a.2 - b.2 : ℚ) : ℝ) ^ 2)

/-- Embeds `itertools.combinations(coords, 2)` in emission order. -/
def pairsList : List α → List (α × α)
  | [] => []
  | x :: xs => xs.map (fun y => (x, y)) ++ pairsList xs

/-- Embeds `ProximityFeatures._pairwise_distances`: coordinates are
`zip(persons["bbox_x"], persons["bbox_y"])` (the stored anchor points,
NOT the box centers), distances are `np.hypot`. -/
noncomputable def pairwiseDistances (persons : List Detection) : List ℝ :=
  (pairsList (persons.map (fun p => (p.bbox_x, p.bbox_y)))).map
    (fun c => Real.sqrt (((c.1.1 - c.2.1 : ℚ) : ℝ) ^ 2 + ((c.1.2 - c.2.2 : ℚ) : ℝ) ^ 2))

/-- Embeds `ProximityFeatures._cross_distances`: person/machine distances from the
same stored anchor points via `np.hypot`. -/
noncomputable def crossDistances (persons machines : List Detection) : List ℝ :=
  persons.flatMap (fun p => machines.map
    (fun m => Real.sqrt (((p.bbox_x - m.bbox_x : ℚ) : ℝ) ^ 2
      + ((p.bbox_y - m.bbox_y : ℚ) : ℝ) ^ 2)))

-- ==========================================================
-- Empty-input rows of the remaining extractors (their literal
-- `_empty_features` dictionaries / empty-branch returns)
-- ==========================================================

/-- Embeds `HumanPresenceFeatures.extract` on a window without persons: the
nine-field zero row returned by the early branch. -/
def humanEmptyRow : Row := [
  ("avg_num_persons", PyVal.num 0),
  ("max_num_persons", PyVal.num 0),
  ("unique_person_tracks", PyVal.num 0),
  ("person_density", PyVal.num 0),
  ("person_presence_ratio", PyVal.num 0),
  ("num_person_entries", PyVal.num 0),
  ("stationary_person_ratio", PyVal.num 0),
  ("crowding_score", PyVal.num 0),
  ("avg_person_height", PyVal.num 0)]

/-- Embeds `MachineVehicleFeatures._empty_features`. -/
def machineEmptyRow : Row := [
  ("num_machines_avg", PyVal.num 0),
  ("machine_presence_ratio", PyVal.num 0),
  ("unique_machine_tracks", PyVal.num 0),
  ("machine_type_ratio", PyVal.num 0),
  ("co_presence_person_machine", PyVal.num 0),
  ("machine_dominance_ratio", PyVal.num 0),
  ("machine_only_duration", PyVal.num 0)]

/-- Embeds `ProximityFeatures._empty_features`: seven fields only — the
`time_near_machine` and `num_machine_interactions` fields of the
non-empty path are absent here. -/
def proximityEmptyRow : Row := [
  ("avg_person_person_distance", PyVal.num 0),
  ("std_person_person_distance", PyVal.num 0),
  ("avg_person_machine_distance", PyVal.num 0),
  ("min_person_person_distance", PyVal.num 0),
  ("min_person_machine_distance", PyVal.num 0),
  ("dangerous_proximity_frames", PyVal.num 0),
  ("bbox_overlap_person_machine", PyVal.num 0)]

/-- Embeds `TemporalDynamicsFeatures._empty_features`. -/
def temporalEmptyRow : Row := [
  ("avg_person_speed", PyVal.num 0),
  ("std_person_speed", PyVal.num 0),
  ("direction_variance", PyVal.num 0),
  ("track_lifetime_mean", PyVal.num 0),
  ("sudden_stop_events", PyVal.num 0),
  ("erratic_motion_score", PyVal.num 0),
  ("high_speed_near_machine", PyVal.num 0)]

/-- Embeds `ZoneFeatures._empty_features`: `first_entry_time` and
`last_exit_time` are Python `None`, all other fields are numeric zero. -/
def zoneEmptyRow : Row := [
  ("num_persons_in_zone", PyVal.num 0),
  ("time_in_zone", PyVal.num 0),
  ("multiple_zone_exposure", PyVal.num 0),
  ("num_people_in_high_risk_zone", PyVal.num 0),
  ("proportion_time_in_high_risk_zone", PyVal.num 0),
  ("zone_entry_exit_events", PyVal.num 0),
  ("first_entry_time", PyVal.noneV),
  ("last_exit_time", PyVal.noneV)]

/-- Embeds `ActivityTransitionFeatures._empty_features` (warm-up row). -/
def transitionEmptyRow : Row := [
  ("activity_change_rate", PyVal.num 0),
  ("zone_transition_count", PyVal.num 0),
  ("risk_transition_score", PyVal.num 0)]

-- ==========================================================
-- Concrete inputs for counterexamples and witnesses
-- ==========================================================

/-- A person detection at time 0 with box (10, 10, 8, 20), track 1. -/
def personDet : Detection :=
  ⟨1, 0, "person", 1, 10, 10, 8, 20, 1⟩

/-- A `no_hardhat` detection at time 0 whose center (12, 15) lies inside
`personDet`'s box — one explicit non-compliance event. -/
def noHardhatDet : Detection :=
  ⟨1, 0, "no_hardhat", 1, 11, 12, 2, 6, 2⟩

/-- A window containing one person and one associated violation. -/
def violWindow : List Detection := [personDet, noHardhatDet]

/-- A person with box (0, 0, 4, 2), track 7, used by the zone-projection
counterexample. -/
def zonePerson : Detection := ⟨1, 0, "person", 1, 0, 0, 4, 2, 7⟩

/-- A homography whose third row is zero: every projection has a zero
homogeneous denominator. -/
def degenerateH : Hmat :=
  ⟨some 1, some 0, some 0, some 0, some 1, some 0, some 0, some 0, some 0⟩

/-- The identity homography. -/
def idH : Hmat :=
  ⟨some 1, some 0, some 0, some 0, some 1, some 0, some 0, some 0, some 1⟩

/-- A homography with a NaN entry: projections come out NaN. -/
def nanH : Hmat :=
  ⟨none, some 0, some 0, some 0, some 1, some 0, none, some 0, some 1⟩

/-- Persons with boxes (0,0,2,2) and (10,0,4,6): equal anchor-point rows,
different sizes, so corner distance and center distance differ. -/
def proxPersonA : Detection := ⟨1, 0, "person", 1, 0, 0, 2, 2, 11⟩

/-- Second person of the proximity counterexample. -/
def proxPersonB : Detection := ⟨1, 0, "person", 1, 10, 0, 4, 6, 12⟩

/-- A machine at the same anchor point as `proxPersonB`. -/
def proxMachine : Detection := ⟨1, 0, "machinery", 1, 10, 0, 4, 6, 13⟩

-- ==========================================================
-- Theorems
-- ==========================================================

/-- Every cell produced by the ML projection is numeric. -/
theorem fillZero_isNum (o : Option PyVal) : ∃ q, fillZero o = PyVal.num q := by
  rcases o with _ | v
  · exact ⟨0, rfl⟩
  · cases v with
    | num q => exact ⟨q, rfl⟩
    | noneV => exact ⟨0, rfl⟩

/-- C1 counterexample: the claim fixes the canonical column count at 29,
but on any non-degenerate run each ML row has the 30 columns of
`ML_FEATURE_COLUMNS` — here evaluated on a concrete one-row run. -/
theorem c1_counterexample :
    ((pipelineTables [[("avg_num_persons", PyVal.num 1)]]).2.headI).length = 30
    ∧ ML_FEATURE_COLUMNS.length ≠ 29 := by
  constructor
  · rfl
  · decide

/-- C1 (amended): for every run emitting at least one feature row, the
ML-schema table has one row per feature row, each with exactly the 30
canonical `ML_FEATURE_COLUMNS` in order, every cell numeric (absent or
missing source values replaced by 0). -/
theorem c1_ml_schema (rows : List Row) (h : rows ≠ []) :
    ((pipelineTables rows).2).length = rows.length
    ∧ (∀ r ∈ (pipelineTables rows).2, r.map Prod.fst = ML_FEATURE_COLUMNS)
    ∧ (∀ r ∈ (pipelineTables rows).2, ∀ kv ∈ r, ∃ q, kv.2 = PyVal.num q)
    ∧ ML_FEATURE_COLUMNS.length = 30 := by
  refine ⟨?_, ?_, ?_, by decide⟩
  · simp [pipelineTables, h]
  · intro r hr
    simp only [pipelineTables, if_neg h, List.mem_map] at hr
    obtain ⟨r0, -, rfl⟩ := hr
    simp only [mlProject, List.map_map]
    exact List.map_id _
  · intro r hr kv hkv
    simp only [pipelineTables, if_neg h, List.mem_map] at hr
    obtain ⟨r0, -, rfl⟩ := hr
    simp only [mlProject, List.mem_map] at hkv
    obtain ⟨c, -, rfl⟩ := hkv
    exact fillZero_isNum _

/-- C1 witness: the amended theorem applied to a concrete one-row run. -/
theorem c1_ml_schema_witness :
    ((pipelineTables [[("x", PyVal.num 1)]]).2).length = 1
    ∧ ML_FEATURE_COLUMNS.length = 30 :=
  ⟨(c1_ml_schema [[("x", PyVal.num 1)]] (by simp)).1,
   (c1_ml_schema [[("x", PyVal.num 1)]] (by simp)).2.2.2⟩

/-- C2: the pipeline invokes the transition extractor as
`extract(current_row=row, history=previous_rows)`, but
`ActivityTransitionFeatures.extract` declares the single parameter
`current_features`; Python keyword binding fails, so the call raises
`TypeError` instead of completing and merging the transition fields. -/
theorem c2_transition_call_mismatch :
    kwCallAccepted atfExtractParams pipelineTransitionKw = false := by decide

/-- C7 counterexample: the zone extractor's empty row binds
`first_entry_time` to Python `None` (non-numeric), and the proximity
extractor's empty row has no `time_near_machine` field at all. -/
theorem c7_counterexample :
    lookupKey zoneEmptyRow "first_entry_time" = some PyVal.noneV
    ∧ lookupKey proximityEmptyRow "time_near_machine" = none := by
  constructor <;> rfl

/-- C7 (amended): every field of the empty rows of the human, EPI,
machine, proximity, temporal and transition extractors is numeric zero;
the zone extractor's empty row is numeric zero on every field except
`first_entry_time` and `last_exit_time` (both `None`); and the
proximity empty row holds exactly seven fields, omitting
`time_near_machine` and `num_machine_interactions`. -/
theorem c7_empty_rows :
    humanEmptyRow.all (fun kv => decide (kv.2 = PyVal.num 0)) = true
    ∧ epiEmptyRow.all (fun kv => decide (kv.2 = PyVal.num 0)) = true
    ∧ machineEmptyRow.all (fun kv => decide (kv.2 = PyVal.num 0)) = true
    ∧ proximityEmptyRow.all (fun kv => decide (kv.2 = PyVal.num 0)) = true
    ∧ temporalEmptyRow.all (fun kv => decide (kv.2 = PyVal.num 0)) = true
    ∧ transitionEmptyRow.all (fun kv => decide (kv.2 = PyVal.num 0)) = true
    ∧ (zoneEmptyRow.filter (fun kv => decide (kv.2 ≠ PyVal.num 0))).map Prod.fst
        = ["first_entry_time", "last_exit_time"]
    ∧ (zoneEmptyRow.filter (fun kv => decide (kv.2 ≠ PyVal.num 0))).map Prod.snd
        = [PyVal.noneV, PyVal.noneV]
    ∧ proximityEmptyRow.map Prod.fst
        = ["avg_person_person_distance", "std_person_person_distance",
           "avg_person_machine_distance", "min_person_person_distance",
           "min_person_machine_distance", "dangerous_proximity_frames",
           "bbox_overlap_person_machine"] := by
  decide

/-- C10: on an empty window, or a window with no person detections, the
protective-equipment extractor returns its nine-field zero row and
leaves the consecutive-violation counter exactly as it was. -/
theorem c10_epi_empty (wd : ℚ) (thr c : ℕ) (df : List Detection)
    (h : df = [] ∨ df.filter (fun d => d.object_class = "person") = []) :
    EPIFeatures.extract wd thr c df = (epiEmptyRow, c)
    ∧ epiEmptyRow.length = 9
    ∧ epiEmptyRow.all (fun kv => decide (kv.2 = PyVal.num 0)) = true := by
  refine ⟨?_, rfl, by decide⟩
  by_cases hdf : df = []
  · subst hdf; rfl
  · rcases h with h | h
    · exact absurd h hdf
    · simp [EPIFeatures.extract, hdf, h]

/-- A window with a counted violation is nonempty and contains persons. -/
theorem epiHasViolation_nonempty (w : List Detection) (h : epiHasViolation w) :
    w ≠ [] ∧ w.filter (fun d => d.object_class = "person") ≠ [] := by
  constructor
  · rintro rfl
    simp [epiHasViolation, associateEpi] at h
  · intro hp
    simp [epiHasViolation, hp, associateEpi] at h

/-- The counter returned by a non-degenerate EPI call: the previous
counter plus one on a violation window, zero otherwise. -/
theorem epi_extract_snd (wd : ℚ) (thr c : ℕ) (w : List Detection)
    (hdf : w ≠ []) (hp : w.filter (fun d => d.object_class = "person") ≠ []) :
    (EPIFeatures.extract wd thr c w).2 = if epiHasViolation w then c + 1 else 0 := by
  simp only [EPIFeatures.extract, if_neg hdf, if_neg hp, epiHasViolation]

/-- The persistent flag of a non-degenerate EPI call fires exactly when the
updated counter reaches the threshold. -/
theorem epi_extract_flag (wd : ℚ) (thr c : ℕ) (w : List Detection)
    (hdf : w ≠ []) (hp : w.filter (fun d => d.object_class = "person") ≠ []) :
    lookupKey (EPIFeatures.extract wd thr c w).1 "persistent_epi_violation"
      = some (PyVal.num (if thr ≤ (EPIFeatures.extract wd thr c w).2 then 1 else 0)) := by
  simp only [EPIFeatures.extract, if_neg hdf, if_neg hp]
  simp [lookupKey]

/-- The duration field of a non-degenerate EPI call equals the updated
counter times the window duration. -/
theorem epi_extract_duration (wd : ℚ) (thr c : ℕ) (w : List Detection)
    (hdf : w ≠ []) (hp : w.filter (fun d => d.object_class = "person") ≠ []) :
    lookupKey (EPIFeatures.extract wd thr c w).1 "epi_violation_duration"
      = some (PyVal.num (((EPIFeatures.extract wd thr c w).2 : ℚ) * wd)) := by
  simp only [EPIFeatures.extract, if_neg hdf, if_neg hp]
  simp [lookupKey]

/-- C3 counterexample: from a fresh extractor, four consecutive violation
windows produce persistent flags 0, 0, 1, 1; windows 2-4 are themselves
"three consecutive windows each containing ≥ 1 non-compliance event" but
show 0, 1, 1, not 0, 0, 1 — the claim needs the counter to be 0 entering
the triple. Moreover on an empty window the row's duration field is 0
while the counter stays 5, so duration ≠ counter × window duration
there. -/
theorem c3_counterexample :
    epiHasViolation violWindow
    ∧ (EPIFeatures.extract 2 3 0 violWindow).2 = 1
    ∧ (EPIFeatures.extract 2 3 1 violWindow).2 = 2
    ∧ (EPIFeatures.extract 2 3 2 violWindow).2 = 3
    ∧ (EPIFeatures.extract 2 3 3 violWindow).2 = 4
    ∧ lookupKey (EPIFeatures.extract 2 3 1 violWindow).1
        "persistent_epi_violation" = some (PyVal.num 0)
    ∧ lookupKey (EPIFeatures.extract 2 3 2 violWindow).1
        "persistent_epi_violation" = some (PyVal.num 1)
    ∧ lookupKey (EPIFeatures.extract 2 3 3 violWindow).1
        "persistent_epi_violation" = some (PyVal.num 1)
    ∧ some (PyVal.num (1 : ℚ)) ≠ some (PyVal.num 0)
    ∧ lookupKey (EPIFeatures.extract 2 3 5 []).1 "epi_violation_duration"
        = some (PyVal.num 0)
    ∧ (EPIFeatures.extract 2 3 5 []).2 = 5
    ∧ (0 : ℚ) ≠ (5 : ℚ) * 2 := by
  have hv : epiHasViolation violWindow := by
    norm_num [epiHasViolation, associateEpi, associateOne, updateAssoc,
      setSlot, yoloToEpi, violWindow, personDet, noHardhatDet]
    all_goals simp
    all_goals norm_num
  have hdf : violWindow ≠ [] := by simp [violWindow]
  have hp : violWindow.filter (fun d => d.object_class = "person") ≠ [] := by
    simp [violWindow, personDet, noHardhatDet]
  have cnt : ∀ c : ℕ, (EPIFeatures.extract 2 3 c violWindow).2 = c + 1 := by
    intro c
    rw [epi_extract_snd 2 3 c violWindow hdf hp, if_pos hv]
  have flag : ∀ c : ℕ,
      lookupKey (EPIFeatures.extract 2 3 c violWindow).1 "persistent_epi_violation"
        = some (PyVal.num (if 3 ≤ c + 1 then 1 else 0)) := by
    intro c
    rw [epi_extract_flag 2 3 c violWindow hdf hp, cnt c]
  refine ⟨hv, cnt 0, cnt 1, cnt 2, cnt 3, ?_, ?_, ?_, by simp, rfl, rfl, by norm_num⟩
  · rw [flag 1]
    norm_num
  · rw [flag 2]
    norm_num
  · rw [flag 3]
    norm_num

/-- C3 (amended): with threshold 3, starting from a consecutive-violation
counter of 0, three consecutive windows each with a counted non-compliance
event yield persistent flags 0, 0, 1; in general a violation window
increments the counter, a window containing persons but zero violations
resets it to zero, and on every window containing persons the duration
field equals the updated counter times the window duration. -/
theorem c3_epi_persistence (wd : ℚ) (w1 w2 w3 : List Detection)
    (h1 : epiHasViolation w1) (h2 : epiHasViolation w2)
    (h3 : epiHasViolation w3) :
    lookupKey (EPIFeatures.extract wd 3 0 w1).1 "persistent_epi_violation"
      = some (PyVal.num 0)
    ∧ lookupKey (EPIFeatures.extract wd 3
        (EPIFeatures.extract wd 3 0 w1).2 w2).1 "persistent_epi_violation"
      = some (PyVal.num 0)
    ∧ lookupKey (EPIFeatures.extract wd 3 (EPIFeatures.extract wd 3
        (EPIFeatures.extract wd 3 0 w1).2 w2).2 w3).1 "persistent_epi_violation"
      = some (PyVal.num 1)
    ∧ (∀ c w, epiHasViolation w → (EPIFeatures.extract wd 3 c w).2 = c + 1)
    ∧ (∀ c w, w.filter (fun d => d.object_class = "person") ≠ [] →
        ¬ epiHasViolation w → (EPIFeatures.extract wd 3 c w).2 = 0)
    ∧ (∀ c w, w.filter (fun d => d.object_class = "person") ≠ [] →
        lookupKey (EPIFeatures.extract wd 3 c w).1 "epi_violation_duration"
          = some (PyVal.num (((EPIFeatures.extract wd 3 c w).2 : ℚ) * wd))) := by
  have inc : ∀ c w, epiHasViolation w → (EPIFeatures.extract wd 3 c w).2 = c + 1 := by
    intro c w hv
    obtain ⟨hdf, hp⟩ := epiHasViolation_nonempty w hv
    rw [epi_extract_snd wd 3 c w hdf hp, if_pos hv]
  have rst : ∀ c w, w.filter (fun d => d.object_class = "person") ≠ [] →
      ¬ epiHasViolation w → (EPIFeatures.extract wd 3 c w).2 = 0 := by
    intro c w hp hnv
    have hdf : w ≠ [] := by
      rintro rfl
      exact hp rfl
    rw [epi_extract_snd wd 3 c w hdf hp, if_neg hnv]
  have dur : ∀ c w, w.filter (fun d => d.object_class = "person") ≠ [] →
      lookupKey (EPIFeatures.extract wd 3 c w).1 "epi_violation_duration"
        = some (PyVal.num (((EPIFeatures.extract wd 3 c w).2 : ℚ) * wd)) := by
    intro c w hp
    have hdf : w ≠ [] := by
      rintro rfl
      exact hp rfl
    exact epi_extract_duration wd 3 c w hdf hp
  obtain ⟨hdf1, hp1⟩ := epiHasViolation_nonempty w1 h1
  obtain ⟨hdf2, hp2⟩ := epiHasViolation_nonempty w2 h2
  obtain ⟨hdf3, hp3⟩ := epiHasViolation_nonempty w3 h3
  refine ⟨?_, ?_, ?_, inc, rst, dur⟩
  · rw [epi_extract_flag wd 3 0 w1 hdf1 hp1, inc 0 w1 h1]
    simp
  · rw [epi_extract_flag wd 3 _ w2 hdf2 hp2, inc _ w2 h2, inc 0 w1 h1]
    simp
  · rw [epi_extract_flag wd 3 _ w3 hdf3 hp3, inc _ w3 h3, inc _ w2 h2, inc 0 w1 h1]
    simp

/-- C3 witness: the amended theorem at the concrete violation window. -/
theorem c3_epi_persistence_witness :
    lookupKey (EPIFeatures.extract 2 3 0 violWindow).1 "persistent_epi_violation"
      = some (PyVal.num 0)
    ∧ lookupKey (EPIFeatures.extract 2 3 (EPIFeatures.extract 2 3
        (EPIFeatures.extract 2 3 0 violWindow).2 violWindow).2 violWindow).1
        "persistent_epi_violation" = some (PyVal.num 1) := by
  have hv : epiHasViolation violWindow := by
    norm_num [epiHasViolation, associateEpi, associateOne, updateAssoc,
      setSlot, yoloToEpi, violWindow, personDet, noHardhatDet]
    all_goals simp
    all_goals norm_num
  exact ⟨(c3_epi_persistence 2 violWindow violWindow violWindow hv hv hv).1,
    (c3_epi_persistence 2 violWindow violWindow violWindow hv hv hv).2.2.1⟩

/-- C10 witness: an empty window with a nonzero counter. -/
theorem c10_epi_empty_witness :
    EPIFeatures.extract 2 3 5 [] = (epiEmptyRow, 5) :=
  (c10_epi_empty 2 3 5 [] (Or.inl rfl)).1

/-- Characterisation of the window loop at index `k`, for any sufficient
fuel: a window is present iff its right edge fits within `endT`. -/
theorem generateAux_get (dfAll : List Detection) (dur step endT : ℚ)
    (hstep : 0 < step) :
    ∀ (fuel : ℕ) (cur : ℚ) (k : ℕ),
      (k < fuel ∨ ¬ (cur + k * step + dur ≤ endT)) →
      (generateAux dfAll dur step endT fuel cur).get? k =
        if cur + k * step + dur ≤ endT
        then some (windowFilter dfAll (cur + k * step) dur) else none := by
  intro fuel
  induction fuel with
  | zero =>
    intro cur k hk
    have hc : ¬ (cur + k * step + dur ≤ endT) := by
      rcases hk with hk | hk
      · omega
      · exact hk
    simp [generateAux, if_neg hc]
  | succ n ih =>
    intro cur k hk
    by_cases h0 : cur + dur ≤ endT
    · rw [generateAux, if_pos h0]
      cases k with
      | zero =>
        have hc : cur + (0 : ℕ) * step + dur ≤ endT := by
          push_cast
          linarith
        rw [if_pos hc]
        simp
      | succ k' =>
        have hshift : cur + step + (k' : ℚ) * step = cur + ((k' + 1 : ℕ) : ℚ) * step := by
          push_cast
          ring
        have hk' : k' < n ∨ ¬ (cur + step + k' * step + dur ≤ endT) := by
          rcases hk with hk | hk
          · exact Or.inl (by omega)
          · refine Or.inr ?_
            rw [hshift]
            exact hk
        have := ih (cur + step) k' hk'
        simp only [List.get?] at this ⊢
        rw [this, hshift]
    · rw [generateAux, if_neg h0]
      have hc : ¬ (cur + k * step + dur ≤ endT) := by
        intro h
        apply h0
        have : (0 : ℚ) ≤ (k : ℚ) * step := mul_nonneg (Nat.cast_nonneg k) hstep.le
        linarith
      simp [if_neg hc]

/-- The chosen fuel covers every emitted window index. -/
theorem genFuel_big (startT endT step dur : ℚ) (hstep : 0 < step)
    (hdur : 0 < dur) (k : ℕ) (hk : startT + k * step + dur ≤ endT) :
    k < genFuel startT endT step := by
  have h2 : (k : ℚ) ≤ (endT - startT - dur) / step :=
    (le_div_iff hstep).mpr (by linarith)
  have h3 : (k : ℚ) ≤ (endT - startT) / step :=
    h2.trans ((div_le_div_right hstep).mpr (by linarith))
  have h4 : (k : ℤ) ≤ Int.ceil ((endT - startT) / step) := by
    exact_mod_cast h3.trans (Int.le_ceil _)
  have h5 : k ≤ (Int.ceil ((endT - startT) / step)).toNat := by
    omega
  unfold genFuel
  omega

/-- C4: with positive duration and step, the `k`-th emitted window is
exactly the bulk-loaded detections with
`start + k·step ≤ timestamp < start + k·step + duration`; an index is
emitted iff `start + k·step + duration ≤ end_time` (and the load is
nonempty); an empty bulk load yields the empty sequence. -/
theorem c4_sliding_window (dfAll : List Detection) (dur step startT endT : ℚ)
    (hstep : 0 < step) (hdur : 0 < dur) :
    (∀ k : ℕ, (SlidingWindow.generate dfAll dur step startT endT).get? k =
        if startT + k * step + dur ≤ endT ∧ dfAll ≠ []
        then some (windowFilter dfAll (startT + k * step) dur) else none)
    ∧ (∀ s : ℚ, ∀ d : Detection, d ∈ windowFilter dfAll s dur ↔
        d ∈ dfAll ∧ s ≤ d.timestamp ∧ d.timestamp < s + dur)
    ∧ SlidingWindow.generate [] dur step startT endT = [] := by
  refine ⟨?_, ?_, by simp [SlidingWindow.generate]⟩
  · intro k
    by_cases hdf : dfAll = []
    · subst hdf
      simp [SlidingWindow.generate]
    · rw [SlidingWindow.generate, if_neg hdf]
      by_cases hc : startT + k * step + dur ≤ endT
      · rw [generateAux_get dfAll dur step endT hstep _ startT k
            (Or.inl (genFuel_big startT endT step dur hstep hdur k hc)),
          if_pos hc, if_pos ⟨hc, hdf⟩]
      · rw [generateAux_get dfAll dur step endT hstep _ startT k (Or.inr hc),
          if_neg hc, if_neg (fun h => hc h.1)]
  · intro s d
    simp [windowFilter, List.mem_filter, and_assoc]

/-- C4 witness: one loaded detection, duration 2, step 1, range [0, 2]:
window 0 is emitted and holds the detection. -/
theorem c4_sliding_window_witness :
    (SlidingWindow.generate [personDet] 2 1 0 2).get? 0
      = some (windowFilter [personDet] (0 + (0 : ℕ) * 1) 2) := by
  rw [(c4_sliding_window [personDet] 2 1 0 2 (by norm_num) (by norm_num)).1 0,
    if_pos]
  constructor
  · push_cast
    norm_num
  · simp

/-- C5 counterexample: with person-count history `[0, 0]` (a third call)
and a current count of 1, the code returns `activity_change_rate = 0`
(the `prev_persons > 0` guard), while the claimed formula
`clip(|1 − 0| / (0 + ε), 0, 1)` gives 1. -/
theorem c5_counterexample :
    (ATF.extract 5 ⟨[0, 0], [0, 0], [0, 0]⟩ 1 0 0).1.rate = 0
    ∧ specActivityChangeRate [0, 0] 1 = 1
    ∧ (0 : ℚ) ≠ 1 := by
  refine ⟨?_, ?_, by norm_num⟩
  · simp only [ATF.extract]
    rw [if_neg (by norm_num)]
    norm_num [qMean]
  · norm_num [specActivityChangeRate, qMean, eps]

/-- C5 (amended): from the third call on (history length ≥ 2), whenever the
history mean is positive, `activity_change_rate` equals
`clip(|current − mean(history)| / (mean(history)+ε), 0, 1)` over the
history excluding the current sample (when the mean is zero the code
returns 0 instead), and the new state is the old one with the current
sample appended to all three bounded histories only after scoring. -/
theorem c5_transition_rate (n : ℕ) (s : ATFState) (curP curZ curH : ℚ)
    (h2 : 2 ≤ s.personHist.length) (hm : 0 < qMean s.personHist) :
    (ATF.extract n s curP curZ curH).1.rate = specActivityChangeRate s.personHist curP
    ∧ (ATF.extract n s curP curZ curH).2 = ATF.update n s curP curZ curH := by
  have hlt : ¬ (s.personHist.length < 2) := by omega
  constructor
  · simp only [ATF.extract, if_neg hlt]
    rw [if_pos hm]
    simp [specActivityChangeRate]
  · simp only [ATF.extract, if_neg hlt]

/-- C5 witness: history `[1, 1]` (mean 1 > 0), current count 2. -/
theorem c5_transition_rate_witness :
    (ATF.extract 5 ⟨[1, 1], [0, 0], [0, 0]⟩ 2 0 0).1.rate
      = specActivityChangeRate [1, 1] 2 :=
  (c5_transition_rate 5 ⟨[1, 1], [0, 0], [0, 0]⟩ 2 0 0 (by norm_num)
    (by norm_num [qMean])).1

/-- The variance of a constant nonempty list is zero. -/
theorem npVarQ_replicate (m : ℕ) (q : ℚ) (hm : m ≠ 0) :
    npVarQ (List.replicate m q) = 0 := by
  have hmean : qMean (List.replicate m q) = q := by
    rw [qMean, List.sum_replicate, List.length_replicate, nsmul_eq_mul]
    field_simp
  rw [npVarQ, hmean]
  have : (List.replicate m q).map (fun x => (x - q) ^ 2) = List.replicate m 0 := by
    rw [List.map_replicate]
    simp
  rw [this, List.sum_replicate]
  simp

/-- Computes `np.std` of a constant nonempty list: zero. -/
theorem npStd_replicate (m : ℕ) (q : ℚ) (hm : m ≠ 0) :
    npStd (List.replicate m q) = 0 := by
  rw [npStd, npVarQ_replicate m q hm]
  simp

/-- Appending the same value to a constant bounded history keeps it
constant, at the capped length. -/
theorem dqAppend_replicate (q : ℚ) (j : ℕ) :
    dqAppend 5 (List.replicate j q) q = List.replicate (min (j + 1) 5) q := by
  unfold dqAppend
  rw [← List.replicate_succ' j q]
  rw [List.drop_replicate]
  congr 1
  simp
  omega

/-- The stability extractor always returns the updated state. -/
theorem ASF.extract_snd (n : ℕ) (s : ASFState) (a b c : ℚ) :
    (ASF.extract n s a b c).2 = ASF.update n s a b c := by
  simp only [ASF.extract]
  split <;> rfl

/-- Under constant input, the three stability histories after `k` calls
are constant lists of capped length `min k 5`. -/
theorem stateAfter_hists (sp p e : ℚ) : ∀ k : ℕ,
    (ASF.stateAfter 5 sp p e k).speedHist = List.replicate (min k 5) sp
    ∧ (ASF.stateAfter 5 sp p e k).personHist = List.replicate (min k 5) p
    ∧ (ASF.stateAfter 5 sp p e k).motionHist = List.replicate (min k 5) e := by
  intro k
  induction k with
  | zero => simp [ASF.stateAfter, ASFState.init]
  | succ j ih =>
    obtain ⟨h1, h2, h3⟩ := ih
    have hmin : min (min j 5 + 1) 5 = min (j + 1) 5 := by omega
    rw [ASF.stateAfter, ASF.extract_snd]
    unfold ASF.update
    rw [h1, h2, h3, dqAppend_replicate, dqAppend_replicate, dqAppend_replicate, hmin]
    exact ⟨rfl, rfl, rfl⟩

/-- C8: the first invocation of the stability extractor returns exactly
(0.5, 0.5, 0.5) because the current values are appended before the length
check; once the (updated) histories hold at least 2 samples,
`activity_persistence_score = 1/(1+std(person_count_history))`; hence for
constant inputs, from the second call on the score is exactly 1. -/
theorem c8_stability (sp p e : ℚ) (k : ℕ) (hk : 2 ≤ k) :
    (ASF.extract 5 ASFState.init sp p e).1 = ⟨1 / 2, 1 / 2, 1 / 2⟩
    ∧ (∀ (s : ASFState) (a b c : ℚ),
        ¬ ((ASF.update 5 s a b c).speedHist.length < 2) →
        (ASF.extract 5 s a b c).1.persistence
          = 1 / (1 + npStd ((ASF.update 5 s a b c).personHist)))
    ∧ (ASF.extract 5 (ASF.stateAfter 5 sp p e (k - 1)) sp p e).1.persistence = 1 := by
  refine ⟨?_, ?_, ?_⟩
  · simp [ASF.extract, ASF.update, ASFState.init, dqAppend]
  · intro s a b c h
    simp only [ASF.extract, if_neg h]
  · obtain ⟨h1, h2, h3⟩ := stateAfter_hists sp p e (k - 1)
    have hmin : min (k - 1) 5 + 1 = min (min (k - 1) 5 + 1) 5 + (min (k - 1) 5 + 1 - 5) := by
      omega
    have hup : ASF.update 5 (ASF.stateAfter 5 sp p e (k - 1)) sp p e
        = ⟨List.replicate (min k 5) sp, List.replicate (min k 5) p,
           List.replicate (min k 5) e⟩ := by
      have hm : min (min (k - 1) 5 + 1) 5 = min k 5 := by omega
      unfold ASF.update
      rw [h1, h2, h3, dqAppend_replicate, dqAppend_replicate, dqAppend_replicate, hm]
    have hlen : ¬ ((ASF.update 5 (ASF.stateAfter 5 sp p e (k - 1)) sp p e).speedHist.length < 2) := by
      rw [hup]
      simp
      omega
    simp only [ASF.extract, if_neg hlen]
    rw [hup]
    simp only
    rw [npStd_replicate (min k 5) p (by omega)]
    norm_num

/-- C8 witness: constant input `(1, 2, 3)`, second call. -/
theorem c8_stability_witness :
    (ASF.extract 5 (ASF.stateAfter 5 1 2 3 (2 - 1)) 1 2 3).1.persistence = 1 :=
  (c8_stability 1 2 3 2 (by norm_num)).2.2

/-- C6 counterexample: for a homography with zero third row the
homogeneous denominator of `zonePerson`'s projection is 0, yet the person
is processed (at plane point (0,0)), not skipped; and under the identity
homography the code projects (0, 1) — the point `(bbox_x, bbox_y+h/2)` —
while the bottom-center of the box is (2, 2). -/
theorem c6_counterexample :
    homogDenom degenerateH zonePerson = some 0
    ∧ zoneProcessedPersons degenerateH [zonePerson] = [(7, 0, 0)]
    ∧ zoneProcessedPersons idH [zonePerson] = [(7, 0, 1)]
    ∧ specBottomCenter zonePerson = (2, 2)
    ∧ ((0 : ℚ), (1 : ℚ)) ≠ ((2 : ℚ), (2 : ℚ))
    ∧ zoneProcessedPersons nanH [zonePerson] = [] := by
  refine ⟨?_, ?_, ?_, ?_, by norm_num, ?_⟩
  · norm_num [homogDenom, fMul, fAdd, degenerateH, zonePerson]
  · norm_num [zoneProcessedPersons, zoneProjectPerson, applyHomography,
      fMul, fAdd, fDiv, degenerateH, zonePerson]
    simp [List.filterMap_cons, zonePerson]
  · norm_num [zoneProcessedPersons, zoneProjectPerson, applyHomography,
      fMul, fAdd, fDiv, idH, zonePerson]
    simp [List.filterMap_cons, zonePerson]
  · norm_num [specBottomCenter, zonePerson]
  · norm_num [zoneProcessedPersons, zoneProjectPerson, applyHomography,
      fMul, fAdd, fDiv, nanH, zonePerson]
    simp [List.filterMap_cons]

/-- C6 (amended): the zone extractor projects each person's stored point
`(bbox_x, bbox_y + bbox_h/2)`; a zero homogeneous denominator yields plane
coordinates (0, 0) and the person is processed normally; only a
non-numeric (NaN) coordinate causes the person to be skipped, and in
either case the remaining persons of the window are still processed. -/
theorem c6_zone_projection (H : Hmat) (p : Detection) (rest : List Detection)
    (hz : homogDenom H p = some 0) :
    zoneProjectPerson H p = (some 0, some 0)
    ∧ zoneProcessedPersons H (p :: rest)
        = (p.track_id, 0, 0) :: zoneProcessedPersons H rest
    ∧ (∀ (q : Detection) (qs : List Detection),
        (zoneProjectPerson H q).1 = none ∨ (zoneProjectPerson H q).2 = none →
        zoneProcessedPersons H (q :: qs) = zoneProcessedPersons H qs)
    ∧ (∀ (q : Detection) (qs : List Detection) (X Y : ℚ),
        zoneProjectPerson H q = (some X, some Y) →
        zoneProcessedPersons H (q :: qs)
          = (q.track_id, X, Y) :: zoneProcessedPersons H qs) := by
  unfold homogDenom at hz
  have hproj : zoneProjectPerson H p = (some 0, some 0) := by
    simp only [zoneProjectPerson, applyHomography]
    rw [if_pos hz]
  refine ⟨hproj, ?_, ?_, ?_⟩
  · simp [zoneProcessedPersons, List.filterMap_cons, hproj]
  · intro q qs hnone
    simp only [zoneProcessedPersons, List.filterMap_cons]
    rcases hpq : zoneProjectPerson H q with ⟨a, b⟩
    rw [hpq] at hnone
    rcases hnone with h | h <;> simp only at h <;> subst h
    · cases b <;> rfl
    · cases a <;> rfl
  · intro q qs X Y hq
    simp [zoneProcessedPersons, List.filterMap_cons, hq]

/-- C6 witness: the amended theorem at the degenerate homography. -/
theorem c6_zone_projection_witness :
    zoneProcessedPersons degenerateH [zonePerson]
      = (zonePerson.track_id, 0, 0) :: zoneProcessedPersons degenerateH [] := by
  exact (c6_zone_projection degenerateH zonePerson []
    (by norm_num [homogDenom, fMul, fAdd, degenerateH, zonePerson])).2.1

/-- C9: the proximity distances are taken between the stored anchor
points `(bbox_x, bbox_y)` — the top-left corners under the repository's
box convention — not between the box centers as the docstring
("Distances centre-centre") and the spec state: for boxes (0,0,2,2) and
(10,0,4,6) the code reports √100 = 10 for both the person–person and the
person–machine distance, while the center distance is √125. -/
theorem c9_corner_vs_center :
    pairwiseDistances [proxPersonA, proxPersonB] = [Real.sqrt 100]
    ∧ crossDistances [proxPersonA] [proxMachine] = [Real.sqrt 100]
    ∧ euclid (bboxCenter proxPersonA) (bboxCenter proxPersonB) = Real.sqrt 125
    ∧ Real.sqrt 100 ≠ Real.sqrt 125 := by
  refine ⟨?_, ?_, ?_, ?_⟩
  · norm_num [pairwiseDistances, pairsList, proxPersonA, proxPersonB]
  · norm_num [crossDistances, proxPersonA, proxMachine]
  · norm_num [euclid, bboxCenter, proxPersonA, proxPersonB]
  · intro h
    have hlt := Real.sqrt_lt_sqrt (by norm_num : (0 : ℝ) ≤ 100)
      (by norm_num : (100 : ℝ) < 125)
    rw [h] at hlt
    exact lt_irrefl _ hlt

end SiteRisk
